import Mathlib

/-!
Verification of the birthday-image generator core
(`src/functions/BirthdayImage.js`).

The development shallowly embeds the pure logic of the function:
photo-source resolution (`resolvePhotoSrc`), the 7-day date window and the
birthday filter built in `renderCumples`, the per-celebrant grid layout of
the drawing loop, the date-range badge text, and the degrade-and-continue
photo drawing step.  Library functions the code calls (JavaScript string
`trim`, `parseInt`, `path.join`, `fs.existsSync`, `dayjs` day arithmetic
and formatting, canvas `measureText` / `loadImage`) are embedded by their
documented semantics; the filesystem and the image loader are passed in as
explicit boolean oracles so every definition stays executable and pure.
-/

namespace BirthdayImage

/-! ### JavaScript string helpers -/

/-- Embedding of JavaScript `String.prototype.trim` on the character list:
drop whitespace from both ends. -/
def jsTrimList (cs : List Char) : List Char :=
  ((cs.dropWhile Char.isWhitespace).reverse.dropWhile Char.isWhitespace).reverse

/-- Embedding of JavaScript `String.prototype.trim`. -/
def jsTrim (s : String) : String :=
  ⟨jsTrimList s.data⟩

/-- ASCII lower-casing of one character, as the case-insensitive regex flag
`i` treats the ASCII pattern `https?:\/\/`. -/
def lowerAscii (c : Char) : Char :=
  if 'A' ≤ c ∧ c ≤ 'Z' then Char.ofNat (c.toNat + 32) else c

/-- Embedding of the test `/^https?:\/\//i.test(name)` from
`resolvePhotoSrc`: the string starts with `http://` or `https://`,
case-insensitively. -/
def isAbsUrl (s : String) : Bool :=
  let l := s.data.map lowerAscii
  List.isPrefixOf "http://".data l || List.isPrefixOf "https://".data l

/-- Embedding of `photosBaseUrl.replace(/\/+$/, '')`: remove every trailing
slash. -/
def dropTrailingSlashes (s : String) : String :=
  ⟨((s.data.reverse.dropWhile (fun c => c = '/')).reverse)⟩

/-- Embedding of `name.replace(/^\/+/, '')`: remove every leading slash. -/
def dropLeadingSlashes (s : String) : String :=
  ⟨s.data.dropWhile (fun c => c = '/')⟩

/-- Embedding of Node's `path.join(dir, name)` for the one shape the code
uses: directory and file name joined by the path separator. -/
def pathJoin (dir name : String) : String :=
  dir ++ "/" ++ name

/-! ### Photo resolution (`resolvePhotoSrc`) -/

/-- The configuration `resolvePhotoSrc` receives, plus the filesystem state
`fs.existsSync` consults, passed explicitly so resolution is a pure
function of its inputs. -/
structure ResolveEnv where
  photosBaseUrl : String
  fotosDir : String
  fsExists : String → Bool

/-- Embedding of `resolvePhotoSrc(photoName, { photosBaseUrl, fotosDir })`:
`null` (here `none`) for an empty or whitespace-only name; the trimmed name
itself when it is an absolute `http(s)://` URL; otherwise, when a base URL
is configured, the base (trailing slashes stripped) and the trimmed name
(leading slashes stripped) joined by one slash; otherwise the local path
`fotosDir/name` when that file exists, else `none`. -/
def resolvePhotoSrc (photoName : String) (env : ResolveEnv) : Option String :=
  if jsTrim photoName = "" then none
  else
    let name := jsTrim photoName
    if isAbsUrl name then some name
    else if env.photosBaseUrl ≠ "" then
      some (dropTrailingSlashes env.photosBaseUrl ++ "/" ++ dropLeadingSlashes name)
    else
      let p := pathJoin env.fotosDir name
      if env.fsExists p then some p else none

/-- A filesystem on which no path exists. -/
def noFs : String → Bool := fun _ => false

/-- A filesystem on which every path exists. -/
def allFs : String → Bool := fun _ => true

/-- A concrete environment with no base URL configured. -/
def envLocal : ResolveEnv := ⟨"", "fotos", noFs⟩

/-- A concrete environment with a base URL configured. -/
def envBase : ResolveEnv := ⟨"https://cdn.example/photos/", "fotos", noFs⟩

example : resolvePhotoSrc "  " envLocal = none := by decide
example : resolvePhotoSrc "a.png" envBase = some "https://cdn.example/photos/a.png" := by decide
example : resolvePhotoSrc "http://x/y.png" envBase = some "http://x/y.png" := by decide
example : resolvePhotoSrc "a.png" envLocal = none := by decide
example : resolvePhotoSrc "a.png" ⟨"", "fotos", allFs⟩ = some "fotos/a.png" := by decide
example : resolvePhotoSrc "http://a " envLocal = some "http://a" := by decide

/-! ### Calendar dates (`dayjs` day arithmetic) -/

/-- Gregorian leap-year rule, as `dayjs` applies it. -/
def isLeapYear (y : Int) : Bool :=
  (y % 4 == 0 && y % 100 != 0) || (y % 400 == 0)

/-- A plain calendar date, the observable state of a `dayjs` value at day
granularity: `month` is 1-based (the code always reads `d.month() + 1`). -/
structure Date where
  year : Int
  month : Int
  day : Int
deriving DecidableEq, Repr

/-- Number of days of a month in the Gregorian calendar. -/
def daysInMonth (y m : Int) : Int :=
  if m = 2 then (if isLeapYear y then 29 else 28)
  else if m = 4 ∨ m = 6 ∨ m = 9 ∨ m = 11 then 30
  else 31

/-- A well-formed calendar date. -/
def ValidDate (d : Date) : Prop :=
  1 ≤ d.month ∧ d.month ≤ 12 ∧ 1 ≤ d.day ∧ d.day ≤ daysInMonth d.year d.month

instance : DecidablePred ValidDate := fun d => by
  unfold ValidDate; infer_instance

/-- The calendar successor of a date: `dayjs#add(1, 'day')`. -/
def nextDay (d : Date) : Date :=
  if d.day < daysInMonth d.year d.month then ⟨d.year, d.month, d.day + 1⟩
  else if d.month < 12 then ⟨d.year, d.month + 1, 1⟩
  else ⟨d.year + 1, 1, 1⟩

/-- Embedding of `dayjs#add(n, 'day')` for a natural offset, as `renderCumples` uses it. -/
def addDays (d : Date) : Nat → Date
  | 0 => d
  | n + 1 => nextDay (addDays d n)

/-- The strict calendar order on dates (lexicographic on year, month, day). -/
def dateLt (a b : Date) : Prop :=
  a.year < b.year ∨
    (a.year = b.year ∧ (a.month < b.month ∨ (a.month = b.month ∧ a.day < b.day)))

instance : ∀ a b : Date, Decidable (dateLt a b) := fun a b => by
  unfold dateLt; infer_instance

/-- Embedding of
`Array.from({ length: 7 }, (_, i) => hoy.add(i, 'day'))`:
the seven dates of the covered week. -/
def diasSemana (hoy : Date) : List Date :=
  (List.range 7).map (fun i => addDays hoy i)

/-- The `dateRange.start` the handler reports: the reference date itself. -/
def reportedStart (hoy : Date) : Date := hoy

/-- The `dateRange.end` the handler reports: `hoy.add(6, 'day')`. -/
def reportedEnd (hoy : Date) : Date := addDays hoy 6

/-! ### Employee records and the birthday filter -/

/-- One parsed CSV row, with the columns `renderCumples` reads.  All fields
are raw strings, exactly as `csv-parser` delivers them. -/
structure Empleado where
  FirstName : String
  LastName : String
  Day : String
  Month : String
  PhotoName : String
deriving DecidableEq, Repr

/-- Value of a list of decimal digits. -/
def digitsVal (cs : List Char) : Int :=
  cs.foldl (fun acc c => acc * 10 + ((c.toNat : Int) - ('0'.toNat : Int))) 0

/-- Embedding of JavaScript `parseInt(s, 10)`: skip leading whitespace, an
optional sign, then the longest run of decimal digits; `none` stands for
`NaN` when no digit is found. -/
def parseIntJS (s : String) : Option Int :=
  let t := s.data.dropWhile Char.isWhitespace
  let signRest : Int × List Char :=
    match t with
    | '-' :: cs => (-1, cs)
    | '+' :: cs => (1, cs)
    | cs => (1, cs)
  let ds := signRest.2.takeWhile Char.isDigit
  if ds.isEmpty then none else some (signRest.1 * digitsVal ds)

/-- The filter predicate of `renderCumples`:
`diasSemana.some((d) => d.date() === dia && d.month() + 1 === mes)` with
`dia`/`mes` parsed by `parseInt`; a `NaN` on either side never compares
equal, hence the `none` cases yield `false`. -/
def matchesWindow (dias : List Date) (emp : Empleado) : Bool :=
  match parseIntJS emp.Day, parseIntJS emp.Month with
  | some dia, some mes => dias.any (fun d => d.day == dia && d.month == mes)
  | _, _ => false

/-- Embedding of `empleados.filter(...)`: the celebrants of the week, in
roster order. -/
def cumpleaneros (empleados : List Empleado) (dias : List Date) : List Empleado :=
  empleados.filter (matchesWindow dias)

/-- The `cumpleanerosCount` value `renderCumples` returns. -/
def cumpleanerosCount (empleados : List Empleado) (dias : List Date) : Nat :=
  (cumpleaneros empleados dias).length

/-! ### Layout (the per-celebrant geometry of the drawing loop) -/

/-- Canvas width constant `WIDTH`.  Geometry is computed in `ℚ`, the exact
semantics of the arithmetic expressions the code evaluates. -/
def WIDTH : ℚ := 1366

/-- Photo diameter constant `PHOTO_SIZE`. -/
def PHOTO_SIZE : ℚ := 150

/-- Row capacity constant `maxPorFila`. -/
def maxPorFila : Nat := 4

/-- Multi-row vertical origin constant `filaYBase`. -/
def filaYBase : ℚ := 320

/-- Row pitch constant `filaAltura = PHOTO_SIZE + 100`. -/
def filaAltura : ℚ := PHOTO_SIZE + 100

/-- The computed on-canvas place of one celebrant. -/
structure LayoutSlot where
  fila : Nat
  columna : Nat
  x : ℚ
  y : ℚ
deriving DecidableEq, Repr

/-- The geometry the body of the drawing loop computes for index `i`:
`fila = Math.floor(i / maxPorFila)`, `columna = i % maxPorFila`,
`filaBase = cumpleaneros.length <= 4 ? 400 : filaYBase`,
`personasEnFila = cumpleaneros.slice(fila * 4, (fila + 1) * 4)`,
`spacingFila = WIDTH / (personasEnFila.length + 1)`,
`x = spacingFila * (columna + 1)`, `y = filaBase + fila * filaAltura`. -/
def slotFun {α : Type} (cumps : List α) (i : Nat) : LayoutSlot :=
  let fila := i / maxPorFila
  let columna := i % maxPorFila
  let filaBase : ℚ := if cumps.length ≤ 4 then 400 else filaYBase
  let personas := ((cumps.drop (fila * maxPorFila)).take maxPorFila).length
  let spacingFila : ℚ := WIDTH / ((personas : ℚ) + 1)
  ⟨fila, columna, spacingFila * ((columna : ℚ) + 1), filaBase + (fila : ℚ) * filaAltura⟩

/-- The layout of the whole loop: one slot per celebrant, in order. -/
def layoutSlots {α : Type} (cumps : List α) : List LayoutSlot :=
  (List.range cumps.length).map (slotFun cumps)

/-- Number of celebrants placed in row `fila`:
`cumpleaneros.slice(fila * maxPorFila, (fila + 1) * maxPorFila).length`. -/
def personasEnFila {α : Type} (cumps : List α) (fila : Nat) : Nat :=
  ((cumps.drop (fila * maxPorFila)).take maxPorFila).length

/-! ### Per-celebrant photo drawing (degrade and continue) -/

/-- The raw name the loop reads:
`(emp.PhotoName && String(emp.PhotoName)) || ''`, the identity on the
string field. -/
def rawNameOf (emp : Empleado) : String := emp.PhotoName

/-- What happened to one celebrant's photo. -/
inductive PhotoOutcome where
  | drawn (src : String)
  | skipped
deriving DecidableEq, Repr

/-- The source the loop hands to `loadImage`: the resolution of the
celebrant's own name, retried with the literal `'user.png'` when it came
back `null`. -/
def photoSrcFor (rawName : String) (env : ResolveEnv) : Option String :=
  match resolvePhotoSrc rawName env with
  | some s => some s
  | none => resolvePhotoSrc "user.png" env

/-- The guarded drawing step: `loadImage(src)` inside `try`/`catch`.  A
`null` source or a failing load is caught and logged, leaving the slot
without a photo; a successful load draws the clipped photo.  `loadOk` is
the oracle saying which sources `loadImage` can load. -/
def drawPhotoStep (rawName : String) (env : ResolveEnv) (loadOk : String → Bool) :
    PhotoOutcome :=
  match photoSrcFor rawName env with
  | none => PhotoOutcome.skipped
  | some s => if loadOk s then PhotoOutcome.drawn s else PhotoOutcome.skipped

/-- The photo outcomes of the whole loop, one per celebrant. -/
def renderOutcomes (cumps : List Empleado) (env : ResolveEnv)
    (loadOk : String → Bool) : List PhotoOutcome :=
  cumps.map (fun emp => drawPhotoStep (rawNameOf emp) env loadOk)

/-! ### Date-range badge -/

/-- English month name, as `dayjs#format('MMMM')` prints it for a valid
1-based month. -/
def monthName (m : Int) : String :=
  if m = 1 then "January" else if m = 2 then "February"
  else if m = 3 then "March" else if m = 4 then "April"
  else if m = 5 then "May" else if m = 6 then "June"
  else if m = 7 then "July" else if m = 8 then "August"
  else if m = 9 then "September" else if m = 10 then "October"
  else if m = 11 then "November" else if m = 12 then "December"
  else ""

/-- Zero-padded two-digit day, as `dayjs#format('DD')` prints it. -/
def pad2 (n : Int) : String :=
  if 0 ≤ n ∧ n < 10 then "0" ++ toString n else toString n

/-- Embedding of `dayjs#format('MMMM DD')`. -/
def formatMMMMDD (d : Date) : String :=
  monthName d.month ++ " " ++ pad2 d.day

/-- The badge text: `` `${fechaInicio} to ${fechaFin}` `` with
`fechaInicio = hoy.format('MMMM DD')` and
`fechaFin = hoy.add(6, 'day').format('MMMM DD')`. -/
def textoRango (hoy : Date) : String :=
  formatMMMMDD hoy ++ " to " ++ formatMMMMDD (addDays hoy 6)

/-- The badge width: `ctx.measureText(textoRango).width + 40`, with the
text metric passed in as an oracle `measure`. -/
def badgeWidth (measure : String → ℚ) (hoy : Date) : ℚ :=
  measure (textoRango hoy) + 40

/-- A concrete employee used to instantiate general theorems. -/
def ana : Empleado := ⟨"Ana", "Lopez", "19", "7", "AnaLopez.png"⟩

/-- A concrete reference date used to instantiate general theorems. -/
def jul19 : Date := ⟨2025, 7, 19⟩

/-! ## Helper lemmas -/

theorem isAbsUrl_ne_empty {s : String} (h : isAbsUrl s = true) : s ≠ "" := by
  intro he
  subst he
  exact absurd h (by decide)

theorem resolve_rule_empty {p : String} {env : ResolveEnv} (h : jsTrim p = "") :
    resolvePhotoSrc p env = none := by
  simp [resolvePhotoSrc, h]

theorem resolve_rule_abs {p : String} {env : ResolveEnv}
    (h : isAbsUrl (jsTrim p) = true) :
    resolvePhotoSrc p env = some (jsTrim p) := by
  have hne := isAbsUrl_ne_empty h
  simp [resolvePhotoSrc, hne, h]

theorem resolve_rule_base {p : String} {env : ResolveEnv} (h1 : jsTrim p ≠ "")
    (h2 : isAbsUrl (jsTrim p) = false) (h3 : env.photosBaseUrl ≠ "") :
    resolvePhotoSrc p env =
      some (dropTrailingSlashes env.photosBaseUrl ++ "/" ++
        dropLeadingSlashes (jsTrim p)) := by
  simp [resolvePhotoSrc, h1, h2, h3]

theorem resolve_rule_local {p : String} {env : ResolveEnv} (h1 : jsTrim p ≠ "")
    (h2 : isAbsUrl (jsTrim p) = false) (h3 : env.photosBaseUrl = "") :
    resolvePhotoSrc p env =
      if env.fsExists (pathJoin env.fotosDir (jsTrim p)) then
        some (pathJoin env.fotosDir (jsTrim p))
      else none := by
  simp [resolvePhotoSrc, h1, h2, h3]

/-! ## Claim theorems -/

/-- Claim C3, amended.  Photo resolution applies the four rules in order,
except that rules 2–4 operate on the *trimmed* `photoName` (the code
evaluates `photoName.trim()` first), so an absolute URL is returned
trimmed, not verbatim: whitespace-only names are unresolved; a trimmed
name matching `http(s)://` is returned as that trimmed name; otherwise a
non-empty base URL gives base and trimmed name joined by exactly one slash
(trailing slashes stripped from the base, leading slashes from the name),
regardless of reachability; otherwise the local file
`localFallbackDir/trimmedName` if it exists, else unresolved. -/
theorem C3_resolver_rules (photoName : String) (env : ResolveEnv) :
    (jsTrim photoName = "" → resolvePhotoSrc photoName env = none) ∧
    (isAbsUrl (jsTrim photoName) = true →
      resolvePhotoSrc photoName env = some (jsTrim photoName)) ∧
    (jsTrim photoName ≠ "" → isAbsUrl (jsTrim photoName) = false →
      env.photosBaseUrl ≠ "" →
      resolvePhotoSrc photoName env =
        some (dropTrailingSlashes env.photosBaseUrl ++ "/" ++
          dropLeadingSlashes (jsTrim photoName))) ∧
    (jsTrim photoName ≠ "" → isAbsUrl (jsTrim photoName) = false →
      env.photosBaseUrl = "" →
      resolvePhotoSrc photoName env =
        if env.fsExists (pathJoin env.fotosDir (jsTrim photoName)) then
          some (pathJoin env.fotosDir (jsTrim photoName))
        else none) :=
  ⟨resolve_rule_empty, resolve_rule_abs,
    fun h1 h2 h3 => resolve_rule_base h1 h2 h3,
    fun h1 h2 h3 => resolve_rule_local h1 h2 h3⟩

/-- Claim C3 witness: with the base URL configured, `user.png` resolves to
the single-slash concatenation. -/
theorem C3_resolver_rules_witness :
    resolvePhotoSrc "user.png" envBase =
      some (dropTrailingSlashes envBase.photosBaseUrl ++ "/" ++
        dropLeadingSlashes (jsTrim "user.png")) :=
  (C3_resolver_rules "user.png" envBase).2.2.1 (by decide) (by decide) (by decide)

/-- Claim C3 counterexample: the raw name `"http://a "` (trailing space)
matches the absolute `http(s)://` pattern, but resolution returns the
trimmed `"http://a"`, not the name verbatim. -/
theorem C3_counterexample :
    isAbsUrl "http://a " = true ∧
    resolvePhotoSrc "http://a " envLocal = some "http://a" ∧
    resolvePhotoSrc "http://a " envLocal ≠ some "http://a " := by
  refine ⟨by decide, by decide, by decide⟩

/-- Claim C8, amended.  Resolution is deterministic — it is a pure function
of `(photoName, basePhotoUrl, localFallbackDir, filesystem)` — and a
`photoName` whose trimmed value matches the absolute `http(s)://` pattern
resolves to that *trimmed* value, independent of the whole rest of the
environment (in particular of `basePhotoUrl`). -/
theorem C8_resolution_pure (photoName : String) (env env2 : ResolveEnv) :
    resolvePhotoSrc photoName env = resolvePhotoSrc photoName env ∧
    (isAbsUrl (jsTrim photoName) = true →
      resolvePhotoSrc photoName env = some (jsTrim photoName) ∧
      resolvePhotoSrc photoName env = resolvePhotoSrc photoName env2) := by
  refine ⟨rfl, fun h => ⟨resolve_rule_abs h, ?_⟩⟩
  rw [resolve_rule_abs h, resolve_rule_abs h]

/-- Claim C8 witness: a concrete absolute URL resolves to itself under a
configured base URL, and identically under the local-only environment. -/
theorem C8_resolution_pure_witness :
    resolvePhotoSrc "https://x.png" envBase = some (jsTrim "https://x.png") ∧
    resolvePhotoSrc "https://x.png" envBase = resolvePhotoSrc "https://x.png" envLocal :=
  (C8_resolution_pure "https://x.png" envBase envLocal).2 (by decide)

/-- Claim C8 counterexample: `"HTTPS://B "` matches the (case-insensitive)
absolute pattern but is not returned unchanged — the result is the trimmed
string. -/
theorem C8_counterexample :
    isAbsUrl "HTTPS://B " = true ∧
    resolvePhotoSrc "HTTPS://B " envBase ≠ some "HTTPS://B " := by
  refine ⟨by decide, by decide⟩

/-- Claim C10.  For a `photoName` that is not empty or whitespace-only, a
non-empty `basePhotoUrl` guarantees a resolved source: resolution never
reaches the local-directory rule (the result does not depend on the
fallback directory or the filesystem) and never returns unresolved, and
the `"user.png"` fallback also always resolves. -/
theorem C10_base_url_total (photoName : String) (env env2 : ResolveEnv)
    (hname : jsTrim photoName ≠ "") (hbase : env.photosBaseUrl ≠ "") :
    (resolvePhotoSrc photoName env).isSome = true ∧
    (env2.photosBaseUrl = env.photosBaseUrl →
      resolvePhotoSrc photoName env = resolvePhotoSrc photoName env2) ∧
    (resolvePhotoSrc "user.png" env).isSome = true := by
  refine ⟨?_, ?_, ?_⟩
  · cases habs : isAbsUrl (jsTrim photoName) with
    | true => rw [resolve_rule_abs habs]; rfl
    | false => rw [resolve_rule_base hname habs hbase]; rfl
  · intro h2
    cases habs : isAbsUrl (jsTrim photoName) with
    | true => rw [resolve_rule_abs habs, resolve_rule_abs habs]
    | false =>
        rw [resolve_rule_base hname habs hbase,
          resolve_rule_base hname habs (by rw [h2]; exact hbase), h2]
  · rw [resolve_rule_base (by decide) (by decide) hbase]; rfl

/-- Claim C10 witness: with the concrete base environment, a plain file name
resolves to a remote URL. -/
theorem C10_base_url_total_witness :
    (resolvePhotoSrc "a.png" envBase).isSome = true :=
  (C10_base_url_total "a.png" envBase envBase (by decide) (by decide)).1

/-- Claim C4.  A celebrant whose own `photoName` resolved to `null` is
retried with the literal `'user.png'` through `resolvePhotoSrc` itself;
when that also yields nothing the guarded drawing step leaves the slot
without a photo instead of failing, the loop still produces an outcome for
every celebrant, and an empty-string `photoName` always resolves to `null`
(so it takes exactly this fallback path, never an error). -/
theorem C4_user_png_fallback (emp : Empleado) (env : ResolveEnv)
    (loadOk : String → Bool)
    (h : resolvePhotoSrc (rawNameOf emp) env = none) :
    photoSrcFor (rawNameOf emp) env = resolvePhotoSrc "user.png" env ∧
    (resolvePhotoSrc "user.png" env = none →
      drawPhotoStep (rawNameOf emp) env loadOk = PhotoOutcome.skipped) ∧
    (∀ cumps : List Empleado,
      (renderOutcomes cumps env loadOk).length = cumps.length) ∧
    resolvePhotoSrc "" env = none := by
  refine ⟨?_, ?_, ?_, ?_⟩
  · simp [photoSrcFor, h]
  · intro h2
    simp [drawPhotoStep, photoSrcFor, h, h2]
  · intro cumps
    simp [renderOutcomes]
  · exact resolve_rule_empty (by decide)

/-- Claim C4 witness: a celebrant with an empty `photoName`, no base URL and
an empty filesystem is rendered with no photo, without an error. -/
theorem C4_user_png_fallback_witness :
    drawPhotoStep (rawNameOf ⟨"Ana", "Lopez", "19", "7", ""⟩) envLocal noFs =
      PhotoOutcome.skipped :=
  (C4_user_png_fallback ⟨"Ana", "Lopez", "19", "7", ""⟩ envLocal noFs
    (by decide)).2.1 (by decide)

/-- Claim C7.  When one celebrant's photo fails to load, that slot's outcome
is `skipped`, the loop still yields exactly one outcome per celebrant, and
every other celebrant's outcome is its own drawing step, untouched by the
failure. -/
theorem C7_photo_failure_isolated (cumps : List Empleado) (env : ResolveEnv)
    (loadOk : String → Bool) (i : Nat) (emp : Empleado)
    (hi : cumps.get? i = some emp)
    (hfail : ∀ s, photoSrcFor (rawNameOf emp) env = some s → loadOk s = false) :
    (renderOutcomes cumps env loadOk).get? i = some PhotoOutcome.skipped ∧
    (renderOutcomes cumps env loadOk).length = cumps.length ∧
    (∀ j e2, cumps.get? j = some e2 →
      (renderOutcomes cumps env loadOk).get? j =
        some (drawPhotoStep (rawNameOf e2) env loadOk)) := by
  refine ⟨?_, by simp [renderOutcomes], ?_⟩
  · rw [renderOutcomes, List.get?_map, hi]
    have hstep : drawPhotoStep (rawNameOf emp) env loadOk = PhotoOutcome.skipped := by
      unfold drawPhotoStep
      cases hsrc : photoSrcFor (rawNameOf emp) env with
      | none => rfl
      | some s => simp [hfail s hsrc]
    simp [hstep]
  · intro j e2 hj
    rw [renderOutcomes, List.get?_map, hj]
    rfl

/-- Claim C7 witness: a roster of one celebrant whose resolved photo fails to
load renders that slot as skipped; the render still completes. -/
theorem C7_photo_failure_isolated_witness :
    (renderOutcomes [ana] envBase noFs).get? 0 = some PhotoOutcome.skipped :=
  (C7_photo_failure_isolated [ana] envBase noFs 0 ana (by decide)
    (fun _ _ => rfl)).1

theorem daysInMonth_bounds (y m : Int) :
    28 ≤ daysInMonth y m ∧ daysInMonth y m ≤ 31 := by
  unfold daysInMonth
  refine ⟨?_, ?_⟩ <;>
    · split
      · split <;> norm_num
      · split <;> norm_num

theorem nextDay_valid {d : Date} (h : ValidDate d) : ValidDate (nextDay d) := by
  obtain ⟨h1, h2, h3, h4⟩ := h
  have hb1 := daysInMonth_bounds d.year (d.month + 1)
  have hb2 := daysInMonth_bounds (d.year + 1) 1
  unfold nextDay
  split
  next h5 => unfold ValidDate; dsimp only; omega
  next h5 =>
    split
    next h6 => unfold ValidDate; dsimp only; omega
    next h6 => unfold ValidDate; dsimp only; omega

theorem dateLt_nextDay (d : Date) : dateLt d (nextDay d) := by
  unfold nextDay
  split
  · unfold dateLt; dsimp only; omega
  · split
    · unfold dateLt; dsimp only; omega
    · unfold dateLt; dsimp only; omega

theorem dateLt_trans {a b c : Date} (h1 : dateLt a b) (h2 : dateLt b c) :
    dateLt a c := by
  unfold dateLt at h1 h2 ⊢
  omega

theorem addDays_add (d : Date) (a b : Nat) :
    addDays d (a + b) = addDays (addDays d a) b := by
  induction b with
  | zero => rfl
  | succ k ih => show nextDay (addDays d (a + k)) = _ ; rw [ih]; rfl

theorem dateLt_addDays (d : Date) (n : Nat) : dateLt d (addDays d (n + 1)) := by
  induction n with
  | zero => exact dateLt_nextDay d
  | succ k ih => exact dateLt_trans ih (dateLt_nextDay (addDays d (k + 1)))

theorem diasSemana_pairwise (D : Date) : (diasSemana D).Pairwise dateLt := by
  unfold diasSemana
  rw [List.pairwise_map]
  refine (List.pairwise_lt_range 7).imp ?_
  intro i j hij
  have hj : j = i + ((j - i - 1) + 1) := by omega
  rw [hj, addDays_add]
  exact dateLt_addDays (addDays D i) (j - i - 1)

/-- Claim C5.  The computed window is exactly the 7 consecutive calendar
dates `[D, D+1, ..., D+6]`: 7 entries, each entry the calendar successor
of the previous one (no gaps), strictly increasing in the calendar order,
and the handler reports `start = D` and `end = D + 6 days`. -/
theorem C5_window (D : Date) :
    diasSemana D = [D, addDays D 1, addDays D 2, addDays D 3, addDays D 4,
      addDays D 5, addDays D 6] ∧
    (diasSemana D).length = 7 ∧
    List.Chain' (fun a b => b = nextDay a) (diasSemana D) ∧
    (diasSemana D).Pairwise dateLt ∧
    reportedStart D = D ∧
    reportedEnd D = addDays D 6 := by
  refine ⟨rfl, rfl, ?_, diasSemana_pairwise D, rfl, rfl⟩
  show List.Chain' (fun a b => b = nextDay a)
    [D, addDays D 1, addDays D 2, addDays D 3, addDays D 4, addDays D 5, addDays D 6]
  repeat constructor

/-- Claim C6.  The birthday selector is a roster-order-preserving
subsequence; every selected record's parsed `(day, month)` equals the
`(day-of-month, month)` of some window date; a record whose day or month
field fails to parse never matches, and (over a window of well-formed
dates) neither does one whose parsed values are outside `1..31` / `1..12`.
All of this by total evaluation — no exception is possible. -/
theorem C6_selector (R : List Empleado) (W : List Date)
    (hW : ∀ d ∈ W, ValidDate d) :
    (cumpleaneros R W).Sublist R ∧
    (∀ emp ∈ cumpleaneros R W, ∃ d ∈ W,
      parseIntJS emp.Day = some d.day ∧ parseIntJS emp.Month = some d.month) ∧
    (∀ emp : Empleado, parseIntJS emp.Day = none ∨ parseIntJS emp.Month = none →
      matchesWindow W emp = false) ∧
    (∀ emp : Empleado, ∀ a b : Int, parseIntJS emp.Day = some a →
      parseIntJS emp.Month = some b → (a < 1 ∨ 31 < a ∨ b < 1 ∨ 12 < b) →
      matchesWindow W emp = false) := by
  refine ⟨List.filter_sublist R, ?_, ?_, ?_⟩
  · intro emp hmem
    have hp : matchesWindow W emp = true := (List.mem_filter.mp hmem).2
    unfold matchesWindow at hp
    cases hd : parseIntJS emp.Day with
    | none => rw [hd] at hp; cases hm : parseIntJS emp.Month <;> simp [hm] at hp
    | some dia =>
        cases hm : parseIntJS emp.Month with
        | none => rw [hd, hm] at hp; simp at hp
        | some mes =>
            rw [hd, hm] at hp
            obtain ⟨d, hdW, hdd⟩ := List.any_eq_true.mp hp
            have h1 : d.day = dia ∧ d.month = mes := by
              simpa [Bool.and_eq_true, beq_iff_eq] using hdd
            obtain ⟨hq1, hq2⟩ := h1
            subst hq1
            subst hq2
            exact ⟨d, hdW, rfl, rfl⟩
  · intro emp h
    unfold matchesWindow
    cases hd : parseIntJS emp.Day <;> cases hm : parseIntJS emp.Month <;>
      simp_all
  · intro emp a b ha hb hrange
    unfold matchesWindow
    rw [ha, hb]
    rw [List.any_eq_false]
    intro d hd
    have hv := hW d hd
    have hbnd := daysInMonth_bounds d.year d.month
    unfold ValidDate at hv
    simp only [Bool.and_eq_true, beq_iff_eq, not_and]
    intro hday
    omega

/-- Claim C6 witness: a one-record roster whose birthday lies in the week of
2025-07-19 is selected, as a sublist of itself. -/
theorem C6_selector_witness :
    (cumpleaneros [ana] (diasSemana jul19)).Sublist [ana] :=
  (C6_selector [ana] (diasSemana jul19) (by decide)).1

theorem personasEnFila_eq {α : Type} (cumps : List α) (f : Nat) :
    personasEnFila cumps f = min 4 (cumps.length - f * 4) := by
  simp [personasEnFila, maxPorFila]

theorem layoutSlots_get? {α : Type} (cumps : List α) (i : Nat) (s : LayoutSlot) :
    (layoutSlots cumps).get? i = some s ↔
      i < cumps.length ∧ s = slotFun cumps i := by
  unfold layoutSlots
  rw [List.get?_map]
  rcases Nat.lt_or_ge i cumps.length with h | h
  · rw [List.get?_range h]
    simp [h, eq_comm]
  · rw [List.get?_eq_none.mpr (by simpa using h)]
    simp
    omega

theorem slotFun_fields {α : Type} (cumps : List α) (i : Nat) :
    (slotFun cumps i).fila = i / 4 ∧
    (slotFun cumps i).columna = i % 4 ∧
    (slotFun cumps i).x =
      WIDTH / ((personasEnFila cumps (i / 4) : ℚ) + 1) * (((i % 4 : Nat) : ℚ) + 1) ∧
    (slotFun cumps i).y =
      (if cumps.length ≤ 4 then (400 : ℚ) else 320) + ((i / 4 : Nat) : ℚ) * 250 := by
  refine ⟨rfl, rfl, ?_, ?_⟩
  · simp [slotFun, personasEnFila, maxPorFila]
  · simp [slotFun, maxPorFila, filaYBase, filaAltura, PHOTO_SIZE]
    norm_num

/-- Claim C1, amended.  Row 0's vertical base is the *lower* origin `400`
when the total celebrant count is at most 4 and the *closer-to-top* fixed
origin `320` when the count exceeds 4 (the opposite assignment to the one
claimed), and each subsequent row's `centerY` adds the fixed row pitch
`250` to that base. -/
theorem C1_layout_vertical {α : Type} (cumps : List α) (i : Nat) (s : LayoutSlot)
    (h : (layoutSlots cumps).get? i = some s) :
    s.fila = i / 4 ∧
    s.y = (if cumps.length ≤ 4 then (400 : ℚ) else 320) + ((i / 4 : Nat) : ℚ) * 250 := by
  obtain ⟨hi, rfl⟩ := (layoutSlots_get? cumps i s).mp h
  exact ⟨(slotFun_fields cumps i).1, (slotFun_fields cumps i).2.2.2⟩

/-- Claim C1 witness: the fifth celebrant of five sits in row 1 at
`centerY = 320 + 1 * 250 = 570`. -/
theorem C1_layout_vertical_witness :
    (⟨1, 0, 683, 570⟩ : LayoutSlot).fila = 4 / 4 ∧
    (⟨1, 0, 683, 570⟩ : LayoutSlot).y =
      (if (List.replicate 5 (0 : Nat)).length ≤ 4 then (400 : ℚ) else 320) +
        ((4 / 4 : Nat) : ℚ) * 250 :=
  C1_layout_vertical (List.replicate 5 (0 : Nat)) 4 ⟨1, 0, 683, 570⟩ (by
    simp only [layoutSlots, slotFun, WIDTH, filaYBase, filaAltura, PHOTO_SIZE,
      maxPorFila, List.length_replicate, List.range_succ, List.map_append,
      List.map_cons, List.map_nil]
    norm_num [List.get?])

/-- Claim C1 counterexample: with 4 celebrants row 0 sits at `y = 400`, with
5 celebrants at `y = 320`; since the canvas y axis grows downward, `320`
is the origin closer to the top, so the count `≤ 4` uses the *lower*
origin — the claim assigns the two origins the wrong way around. -/
theorem C1_counterexample :
    ((layoutSlots (List.replicate 4 (0 : Nat))).get? 0).map LayoutSlot.y = some 400 ∧
    ((layoutSlots (List.replicate 5 (0 : Nat))).get? 0).map LayoutSlot.y = some 320 ∧
    (320 : ℚ) < 400 := by
  refine ⟨?_, ?_, by norm_num⟩ <;>
    · simp only [layoutSlots, slotFun, WIDTH, filaYBase, filaAltura, PHOTO_SIZE,
        maxPorFila, List.length_replicate, List.range_succ, List.map_append,
        List.map_cons, List.map_nil]
      norm_num [List.get?]

/-- Claim C2.  The layout yields one slot per celebrant in original order,
grouped into rows of at most 4 (`fila = i / 4`, `columna = i % 4`),
exactly `⌈k/4⌉` rows are populated, the horizontal center in a row holding
`r` celebrants at position `p` is `WIDTH / (r+1) * (p+1)`, positions
mirrored in their row sum to `WIDTH` (symmetry about the midpoint) and a
mirror position always exists, two distinct celebrants of one row never
share a center, and the lone fifth celebrant of five is centered at
`WIDTH / 2`. -/
theorem C2_layout_grid {α : Type} (cumps : List α) :
    (layoutSlots cumps).length = cumps.length ∧
    (∀ f : Nat, personasEnFila cumps f ≤ 4) ∧
    (∀ f : Nat, 0 < personasEnFila cumps f ↔ f < (cumps.length + 3) / 4) ∧
    (∀ i s, (layoutSlots cumps).get? i = some s →
      s.fila = i / 4 ∧ s.columna = i % 4 ∧
      s.columna < personasEnFila cumps s.fila ∧
      s.x = WIDTH / ((personasEnFila cumps s.fila : ℚ) + 1) * ((s.columna : ℚ) + 1)) ∧
    (∀ i j s t, (layoutSlots cumps).get? i = some s →
      (layoutSlots cumps).get? j = some t → s.fila = t.fila →
      s.columna + t.columna + 1 = personasEnFila cumps s.fila →
      s.x + t.x = WIDTH) ∧
    (∀ i s, (layoutSlots cumps).get? i = some s →
      ∃ j t, (layoutSlots cumps).get? j = some t ∧ t.fila = s.fila ∧
        s.columna + t.columna + 1 = personasEnFila cumps s.fila) ∧
    (∀ i j s t, (layoutSlots cumps).get? i = some s →
      (layoutSlots cumps).get? j = some t → s.fila = t.fila → s.x = t.x →
      i = j) ∧
    (cumps.length = 5 → ∀ s, (layoutSlots cumps).get? 4 = some s →
      s.x = WIDTH / 2) := by
  have hlen : (layoutSlots cumps).length = cumps.length := by
    simp [layoutSlots]
  have hmax : ∀ f : Nat, personasEnFila cumps f ≤ 4 := by
    intro f; rw [personasEnFila_eq]; omega
  have hrows : ∀ f : Nat, 0 < personasEnFila cumps f ↔ f < (cumps.length + 3) / 4 := by
    intro f; rw [personasEnFila_eq]; omega
  have hpos : ∀ i s, (layoutSlots cumps).get? i = some s →
      s.fila = i / 4 ∧ s.columna = i % 4 ∧
      s.columna < personasEnFila cumps s.fila ∧
      s.x = WIDTH / ((personasEnFila cumps s.fila : ℚ) + 1) * ((s.columna : ℚ) + 1) := by
    intro i s h
    obtain ⟨hi, rfl⟩ := (layoutSlots_get? cumps i s).mp h
    obtain ⟨e1, e2, e3, _⟩ := slotFun_fields cumps i
    refine ⟨e1, e2, ?_, ?_⟩
    · rw [e1, e2, personasEnFila_eq]; omega
    · rw [e1, e2, e3]
  refine ⟨hlen, hmax, hrows, hpos, ?_, ?_, ?_, ?_⟩
  · -- mirrored positions sum to WIDTH
    intro i j s t hs ht hrow hsum
    obtain ⟨_, _, _, hx1⟩ := hpos i s hs
    obtain ⟨_, _, _, hx2⟩ := hpos j t ht
    rw [hx1, hx2, ← hrow]
    set r := personasEnFila cumps s.fila with hr
    have h0 : ((r : ℚ) + 1) ≠ 0 := by positivity
    have hcast : ((s.columna : ℚ) + 1) + ((t.columna : ℚ) + 1) = (r : ℚ) + 1 := by
      have := hsum
      push_cast [← this]
      ring
    calc WIDTH / ((r : ℚ) + 1) * ((s.columna : ℚ) + 1) +
          WIDTH / ((r : ℚ) + 1) * ((t.columna : ℚ) + 1)
        = WIDTH / ((r : ℚ) + 1) * (((s.columna : ℚ) + 1) + ((t.columna : ℚ) + 1)) := by
          ring
      _ = WIDTH / ((r : ℚ) + 1) * ((r : ℚ) + 1) := by rw [hcast]
      _ = WIDTH := div_mul_cancel₀ WIDTH h0
  · -- a mirror position exists
    intro i s hs
    obtain ⟨hi, hsi⟩ := (layoutSlots_get? cumps i s).mp hs
    obtain ⟨e1, e2, e3, _⟩ := hpos i s hs
    set r := personasEnFila cumps s.fila with hr
    have hrval : r = min 4 (cumps.length - (i / 4) * 4) := by
      rw [hr, e1, personasEnFila_eq]
    refine ⟨s.fila * 4 + (r - 1 - s.columna), slotFun cumps (s.fila * 4 + (r - 1 - s.columna)),
      ?_, ?_, ?_⟩
    · exact (layoutSlots_get? cumps _ _).mpr ⟨by rw [e1, e2] at *; omega, rfl⟩
    · rw [(slotFun_fields cumps _).1, e1, e2] at *
      omega
    · rw [(slotFun_fields cumps _).2.1, e1, e2] at *
      omega
  · -- distinct celebrants of one row have distinct centers
    intro i j s t hs ht hrow hx
    obtain ⟨e1, e2, _, hx1⟩ := hpos i s hs
    obtain ⟨f1, f2, _, hx2⟩ := hpos j t ht
    rw [hx1, hx2, ← hrow] at hx
    set r := personasEnFila cumps s.fila with hr
    have h0 : WIDTH / ((r : ℚ) + 1) ≠ 0 := by
      rw [WIDTH]; positivity
    have hcols : ((s.columna : ℚ) + 1) = ((t.columna : ℚ) + 1) :=
      mul_left_cancel₀ h0 hx
    have hcol : s.columna = t.columna := by
      have : (s.columna : ℚ) = (t.columna : ℚ) := by linarith
      exact_mod_cast this
    rw [e1, f1] at hrow
    rw [e2, f2] at hcol
    omega
  · -- the lone fifth celebrant of five is centered
    intro h5 s hs
    obtain ⟨e1, e2, _, hx⟩ := hpos 4 s hs
    rw [hx, e1, e2, personasEnFila_eq, h5]
    norm_num

/-- Claim C2 witness: in a five-celebrant layout the slot of index 4 (row 1,
lone occupant) is horizontally centered. -/
theorem C2_layout_grid_witness :
    (⟨1, 0, 683, 570⟩ : LayoutSlot).x = WIDTH / 2 :=
  (C2_layout_grid (List.replicate 5 (0 : Nat))).2.2.2.2.2.2.2 (by simp)
    ⟨1, 0, 683, 570⟩ (by
      simp only [layoutSlots, slotFun, WIDTH, filaYBase, filaAltura, PHOTO_SIZE,
        maxPorFila, List.length_replicate, List.range_succ, List.map_append,
        List.map_cons, List.map_nil]
      norm_num [List.get?])

theorem strAppend_assoc (a b c : String) : a ++ b ++ c = a ++ (b ++ c) := by
  cases a with
  | mk la =>
    cases b with
    | mk lb =>
      cases c with
      | mk lc =>
        show String.mk (la ++ lb ++ lc) = String.mk (la ++ (lb ++ lc))
        rw [List.append_assoc]

/-- Claim C9.  The badge text is the month name and (zero-padded) day of the
window start, `" to "`, then the month name and day of `start + 6 days`;
the badge width is the measured width of that very text plus the fixed
padding 40. -/
theorem C9_badge (hoy : Date) (measure : String → ℚ) :
    textoRango hoy =
      monthName hoy.month ++ " " ++ pad2 hoy.day ++ " to " ++
        monthName (addDays hoy 6).month ++ " " ++ pad2 (addDays hoy 6).day ∧
    badgeWidth measure hoy = measure (textoRango hoy) + 40 := by
  refine ⟨?_, rfl⟩
  unfold textoRango formatMMMMDD
  simp only [strAppend_assoc]

end BirthdayImage
